import Mathlib

/-!
Verification of the Move-Semantics repository
(src/Move-Semantics/Move-Semantics.cpp).

The C++ source defines a heap-owning `String` class with four construction
paths (default, from a C string, copy, move), a destructor, and a `Print`
method, plus an `Entity` class holding a `String` built either by copy
(from an lvalue) or by move (from an rvalue), and a `main` that exercises
the move path.

We embed the program shallowly: the heap is explicit state (a fresh-id
counter plus an association list of live allocations and their byte
contents), a `String` is its two members `m_Data : Option Nat` (a nullable
pointer, `none` = nullptr, `some a` = pointer to allocation `a`) and
`m_Size : Nat` (the C++ `uint32_t m_Size`, kept as a `Nat` with the
reduction mod `2 ^ 32` applied explicitly at the program's single
narrowing conversion: the `m_Size = strlen(string)` assignment, where a
`size_t` is converted to `uint32_t`; every other write to `m_Size` copies
an existing `uint32_t` value unchanged).  Bytes are modelled as `Char`.
Operations that the C++ code performs are translated line by line; reads
through a null or dangling pointer (undefined behaviour in C++) make the
operation return `none`.
-/

namespace MoveSemantics

/-- The heap: `next` is the next fresh allocation id, `live` maps each live
allocation id to its byte contents. -/
structure Heap where
  next : Nat
  live : List (Nat × List Char)
  deriving Repr, DecidableEq

/-- Contents of allocation `a`, or `none` if `a` is not live. -/
def Heap.get (h : Heap) (a : Nat) : Option (List Char) :=
  (h.live.find? (fun p => p.1 == a)).map (fun p => p.2)

/-- `new char[n]` with the given contents: returns the fresh id and the
updated heap.  (`new char[0]` in C++ returns a valid non-null pointer,
so a size-0 allocation is still a live allocation here.) -/
def Heap.alloc (h : Heap) (bytes : List Char) : Nat × Heap :=
  (h.next, ⟨h.next + 1, (h.next, bytes) :: h.live⟩)

/-- `delete` of a live allocation: remove it from the heap. -/
def Heap.free (h : Heap) (a : Nat) : Heap :=
  ⟨h.next, h.live.filter (fun p => p.1 != a)⟩

/-- The empty initial heap. -/
def Heap.init : Heap := ⟨0, []⟩

/-- Trace events corresponding to the diagnostic lines the C++ code prints:
`printf("Created!\n")`, `printf("Copied!\n")`, `printf("Moved!\n")`,
`std::cout << "Destroyed\n"`. -/
inductive Event where
  | created
  | copied
  | moved
  | destroyed
  deriving Repr, DecidableEq

/-- `created` and `copied` are the two events whose constructors run
`new char[...]`; `moved` and `destroyed` allocate nothing. -/
def Event.allocates : Event → Bool
  | .created => true
  | .copied => true
  | _ => false

/-- Number of heap allocations performed along a trace. -/
def allocCount (evs : List Event) : Nat :=
  (evs.filter Event.allocates).length

/-- Number of duplications (deep copies, `Copied!` lines) along a trace. -/
def dupCount (evs : List Event) : Nat :=
  (evs.filter (fun e => e == Event.copied)).length

/-- The two members of the C++ `String` class:
`char* m_Data;` (nullable pointer, no default initializer) and
`uint32_t m_Size;` (no default initializer).  `m_Size` is kept as a `Nat`;
the program's only `size_t → uint32_t` narrowing, in
`String(const char*)`, applies the reduction mod `2 ^ 32` explicitly
there, and every other assignment to `m_Size` copies another `uint32_t`
field verbatim. -/
structure String where
  m_Data : Option Nat
  m_Size : Nat
  deriving Repr, DecidableEq

/-- `strlen`: length of the character sequence up to (not including) the
first NUL terminator. -/
def strlen (s : List Char) : Nat :=
  (s.takeWhile (fun c => c != Char.ofNat 0)).length

/-- The first `strlen s` characters of `s` (what `memcpy(dst, s, strlen s)`
copies). -/
def cstrBytes (s : List Char) : List Char :=
  s.takeWhile (fun c => c != Char.ofNat 0)

/-- Read `n` bytes starting at pointer `d` in heap `h`:
`some` the bytes read, `none` if the read dereferences a null or dangling
pointer or runs past the allocation (undefined behaviour).  Reading zero
bytes reads nothing and is always fine. -/
def readBytes (h : Heap) (d : Option Nat) (n : Nat) : Option (List Char) :=
  if n = 0 then some []
  else
    match d with
    | none => none
    | some a =>
      match h.get a with
      | none => none
      | some cs => if n ≤ cs.length then some (cs.take n) else none

/-- Result of a `String` constructor that may touch the heap. -/
structure CtorResult where
  str : String
  heap : Heap
  events : List Event
  deriving Repr, DecidableEq

/-- `String(const char* string)` (lines 32–38):
`m_Size = strlen(string); m_Data = new char[m_Size];
memcpy(m_Data, string, m_Size);` and prints `Created!`.
`strlen` returns a `size_t`; storing it in the `uint32_t m_Size` reduces
it mod `2 ^ 32`, so the allocation and the copy cover only the first
`strlen(string) % 2 ^ 32` characters of the input. -/
def String.fromCString (s : List Char) (h : Heap) : CtorResult :=
  let n := strlen s % 2 ^ 32
  let (a, h') := h.alloc ((cstrBytes s).take n)
  ⟨⟨some a, n⟩, h', [Event.created]⟩

/-- `String(const String& other)` (lines 42–48), the deep copy:
`m_Size = other.m_Size; m_Data = new char[m_Size];
memcpy(m_Data, other.m_Data, m_Size);` and prints `Copied!`.
Returns `none` if reading `other.m_Size` bytes through `other.m_Data`
is undefined behaviour. -/
def String.copyCtor (other : String) (h : Heap) : Option CtorResult :=
  match readBytes h other.m_Data other.m_Size with
  | none => none
  | some bytes =>
    let (a, h') := h.alloc bytes
    some ⟨⟨some a, other.m_Size⟩, h', [Event.copied]⟩

/-- Result of the move constructor: the new string, the modified source,
and the trace.  The heap is untouched: the move constructor performs no
allocation and copies no bytes. -/
structure MoveResult where
  str : String
  src : String
  events : List Event
  deriving Repr, DecidableEq

/-- `String(String&& other)` (lines 51–64):
`m_Size = other.m_Size; m_Data = other.m_Data;
other.m_Data = nullptr; other.m_Size = 0;` and prints `Moved!`. -/
def String.moveCtor (other : String) : MoveResult :=
  ⟨⟨other.m_Data, other.m_Size⟩, ⟨none, 0⟩, [Event.moved]⟩

/-- `~String()` (lines 66–70): prints `Destroyed` and runs `delete m_Data`.
`delete` of a null pointer is a no-op; `delete` of a live allocation frees
it; `delete` of an already-freed pointer is undefined behaviour (`none`).
The boolean records whether an allocation was actually freed. -/
def String.dtor (s : String) (h : Heap) : Option (Heap × Bool × List Event) :=
  match s.m_Data with
  | none => some (h, false, [Event.destroyed])
  | some a =>
    match h.get a with
    | none => none
    | some _ => some (h.free a, true, [Event.destroyed])

/-- `String::Print` (lines 72–80): prints `m_Data[i]` for each
`i < m_Size`, then a newline.  Returns the emitted characters, or `none`
if some `m_Data[i]` read is undefined behaviour. -/
def String.Print (s : String) (h : Heap) : Option (List Char) :=
  match readBytes h s.m_Data s.m_Size with
  | none => none
  | some bytes => some (bytes ++ [Char.ofNat 10])

/-- `String() = default;` (line 28): the members have no default
initializers, so a default-constructed `String` holds indeterminate
(junk) values in `m_Data` and `m_Size`; the junk is made explicit as
arguments. -/
def String.defaultCtor (junkData : Option Nat) (junkSize : Nat) : String :=
  ⟨junkData, junkSize⟩

/-- The representation invariant of the buffer type: a null `m_Data`
forces `m_Size = 0`, and a positive `m_Size` forces `m_Data` to point at a
live allocation of at least `m_Size` bytes. -/
def repInv (s : String) (h : Heap) : Prop :=
  (s.m_Data = none → s.m_Size = 0) ∧
  (0 < s.m_Size → ∃ a, s.m_Data = some a ∧
    ∃ cs, h.get a = some cs ∧ s.m_Size ≤ cs.length)

/-- The C++ `Entity` class: one member `String m_Name;`. -/
structure Entity where
  m_Name : String
  deriving Repr, DecidableEq

/-- `Entity(const String& name) : m_Name(name)` (lines 93–96): builds
`m_Name` with the copy constructor. -/
def Entity.fromExisting (name : String) (h : Heap) :
    Option (Entity × Heap × List Event) :=
  match String.copyCtor name h with
  | none => none
  | some r => some (⟨r.str⟩, r.heap, r.events)

/-- `Entity(String&& name) : m_Name(std::move(name))` (lines 102–105):
builds `m_Name` with the move constructor; returns the entity and the
moved-from argument. -/
def Entity.fromTransient (name : String) :
    Entity × String × List Event :=
  let r := String.moveCtor name
  (⟨r.str⟩, r.src, r.events)

/-- `Entity::PrintName` (lines 107–110): delegates to `m_Name.Print()`. -/
def Entity.PrintName (e : Entity) (h : Heap) : Option (List Char) :=
  e.m_Name.Print h

/-- The characters of the C string literal `"Foo"`. -/
def fooChars : List Char := ['F', 'o', 'o']

/-- `main` (lines 116–124): `Entity entity(String("Foo"));` constructs the
temporary, moves it into the entity, destroys the temporary at the end of
the full expression; `entity.PrintName();` prints; finally the entity (and
with it `m_Name`) is destroyed.  Returns the characters `PrintName`
emitted, the full event trace, the moved-from temporary just before its
destruction, and the final heap; `none` on any undefined behaviour. -/
def mainRun : Option (List Char × List Event × String × Heap) :=
  let r1 := String.fromCString fooChars Heap.init
  let (entity, tmp, e2) := Entity.fromTransient r1.str
  match tmp.dtor r1.heap with
  | none => none
  | some (h3, _, e3) =>
    match entity.PrintName h3 with
    | none => none
    | some out =>
      match entity.m_Name.dtor h3 with
      | none => none
      | some (h4, _, e4) =>
        some (out, r1.events ++ e2 ++ e3 ++ e4, tmp, h4)

/-- A configuration of an execution: the `String` instances currently
live in scope, and the heap. -/
structure Config where
  strs : List String
  heap : Heap

/-- Two instances own disjoint storage: they never hold the same non-null
data pointer. -/
def DisjointOwn (s t : String) : Prop :=
  ∀ a : Nat, s.m_Data = some a → t.m_Data = some a → False

/-- No two live instances reference the same allocation. -/
def NoShare (c : Config) : Prop :=
  c.strs.Pairwise DisjointOwn

/-- Every non-null data pointer held by a live instance stays below the
heap's fresh-allocation mark (so a fresh allocation is never aliased). -/
def Bounded (c : Config) : Prop :=
  ∀ s ∈ c.strs, ∀ a : Nat, s.m_Data = some a → a < c.heap.next

/-- Exclusive ownership: pointers are within the allocated range and no
allocation is referenced by two live instances. -/
def Exclusive (c : Config) : Prop := Bounded c ∧ NoShare c

/-- One execution step of the program's `String` API: constructing from a
C string, copy-constructing from a live instance, move-constructing from
a live instance (which nulls the source in place), or destroying a live
instance. -/
inductive Step : Config → Config → Prop where
  | create (c : Config) (cs : List Char) :
      Step c ⟨(String.fromCString cs c.heap).str :: c.strs,
              (String.fromCString cs c.heap).heap⟩
  | copy (c : Config) (i : Fin c.strs.length) (cr : CtorResult)
      (hres : String.copyCtor (c.strs.get i) c.heap = some cr) :
      Step c ⟨cr.str :: c.strs, cr.heap⟩
  | move (c : Config) (i : Fin c.strs.length) :
      Step c ⟨(String.moveCtor (c.strs.get i)).str ::
                c.strs.set i (String.moveCtor (c.strs.get i)).src,
              c.heap⟩
  | destroy (c : Config) (i : Fin c.strs.length) (h2 : Heap) (fr : Bool)
      (evs : List Event)
      (hres : (c.strs.get i).dtor c.heap = some (h2, fr, evs)) :
      Step c ⟨c.strs.eraseIdx i, h2⟩

/-- The initial configuration: no live instances, empty heap. -/
def Config.init : Config := ⟨[], Heap.init⟩

/-- Reachability by zero or more execution steps. -/
def Reach : Config → Config → Prop := Relation.ReflTransGen Step

end MoveSemantics

namespace MoveSemantics

/-- A NUL-free character list is its own C-string content. -/
lemma cstrBytes_of_not_mem (b : List Char) (hb : Char.ofNat 0 ∉ b) :
    cstrBytes b = b := by
  apply List.takeWhile_eq_self_iff.mpr
  intro c hc
  simp only [bne_iff_ne, ne_eq]
  intro hceq
  exact hb (hceq ▸ hc)

/-- Unfolded form of `String.fromCString` on a NUL-free input short
enough that the `uint32_t` size does not wrap. -/
lemma fromCString_eq (b : List Char) (h : Heap) (hb : Char.ofNat 0 ∉ b)
    (hlen : b.length < 2 ^ 32) :
    String.fromCString b h =
      ⟨⟨some h.next, b.length⟩, ⟨h.next + 1, (h.next, b) :: h.live⟩,
        [Event.created]⟩ := by
  have hbytes : cstrBytes b = b := cstrBytes_of_not_mem b hb
  have hstr : strlen b = b.length := congrArg List.length hbytes
  have hmod : strlen b % 2 ^ 32 = b.length := by
    rw [hstr]
    exact Nat.mod_eq_of_lt hlen
  rw [String.fromCString, hmod, hbytes, List.take_length]
  rfl

/-- The stored prefix has exactly the wrapped length. -/
lemma take_mod_length (b : List Char) :
    ((cstrBytes b).take (strlen b % 2 ^ 32)).length = strlen b % 2 ^ 32 := by
  rw [List.length_take]
  exact Nat.min_eq_left (Nat.mod_le _ _)

/-- Unfolded form of `String.fromCString` on an arbitrary input: the
stored size is the wrapped `strlen` and the allocation holds the
correspondingly truncated prefix. -/
lemma fromCString_shape (b : List Char) (h : Heap) :
    String.fromCString b h =
      ⟨⟨some h.next, strlen b % 2 ^ 32⟩,
        ⟨h.next + 1, (h.next, (cstrBytes b).take (strlen b % 2 ^ 32)) :: h.live⟩,
        [Event.created]⟩ := rfl

/-- `String.fromCString` on a NUL-free input of length exactly `2 ^ 32`:
the `uint32_t` size wraps to 0, so a zero-byte buffer is allocated. -/
lemma fromCString_big :
    String.fromCString (List.replicate (2 ^ 32) 'a') Heap.init =
      ⟨⟨some 0, 0⟩, ⟨1, [(0, [])]⟩, [Event.created]⟩ := by
  have hb : Char.ofNat 0 ∉ List.replicate (2 ^ 32) 'a' := by
    intro hmem
    exact absurd (List.eq_of_mem_replicate hmem) (by decide)
  have hbytes : cstrBytes (List.replicate (2 ^ 32) 'a')
      = List.replicate (2 ^ 32) 'a' := cstrBytes_of_not_mem _ hb
  have hstr : strlen (List.replicate (2 ^ 32) 'a') = 2 ^ 32 := by
    rw [show strlen (List.replicate (2 ^ 32) 'a')
        = (cstrBytes (List.replicate (2 ^ 32) 'a')).length from rfl, hbytes,
      List.length_replicate]
  rw [String.fromCString, hstr, Nat.mod_self, List.take_zero]
  rfl

/-- A successor id never collides with the id below it. -/
lemma beq_succ_self (n : Nat) : (n + 1 == n) = false := by
  simp [Nat.succ_ne_self]

/-- Heap lookup at the head of the allocation list. -/
lemma Heap.get_head (n nx : Nat) (bs : List Char) (rest : List (Nat × List Char)) :
    Heap.get ⟨nx, (n, bs) :: rest⟩ n = some bs := by
  simp [Heap.get, List.find?]

/-- Reading exactly the bytes of a live allocation returns its contents. -/
lemma readBytes_full (h : Heap) (a : Nat) (bs : List Char)
    (ha : h.get a = some bs) : readBytes h (some a) bs.length = some bs := by
  by_cases hlen : bs.length = 0
  · simp [readBytes, hlen, List.length_eq_zero.mp hlen]
  · simp [readBytes, hlen, ha, List.take_length]

/-- A string whose pointer targets a live allocation of exactly its size
prints the allocation's contents followed by a newline. -/
lemma Print_of_get (s : String) (h : Heap) (a : Nat) (bs : List Char)
    (hd : s.m_Data = some a) (hs : s.m_Size = bs.length)
    (ha : h.get a = some bs) :
    s.Print h = some (bs ++ [Char.ofNat 10]) := by
  simp [String.Print, hd, hs, readBytes_full h a bs ha]

/-- The copy constructor applied to a string whose pointer targets a live
allocation of exactly its size: a fresh allocation with identical
contents. -/
lemma copyCtor_of_get (h : Heap) (a : Nat) (cs : List Char)
    (ha : h.get a = some cs) :
    String.copyCtor ⟨some a, cs.length⟩ h
      = some ⟨⟨some h.next, cs.length⟩, ⟨h.next + 1, (h.next, cs) :: h.live⟩,
          [Event.copied]⟩ := by
  simp [String.copyCtor, readBytes_full h a cs ha, Heap.alloc]

/-- C2 counterexample: on the NUL-free input of length exactly `2 ^ 32`,
the `size_t → uint32_t` conversion in `m_Size = strlen(string)` wraps to
0, so the constructed buffer's size is not the input's length and `Print`
does not emit the input's bytes. -/
theorem construct_roundtrip_cex :
    (String.fromCString (List.replicate (2 ^ 32) 'a') Heap.init).str.m_Size
      ≠ (List.replicate (2 ^ 32) 'a' : List Char).length ∧
    (String.fromCString (List.replicate (2 ^ 32) 'a') Heap.init).str.Print
        (String.fromCString (List.replicate (2 ^ 32) 'a') Heap.init).heap
      ≠ some ((List.replicate (2 ^ 32) 'a' : List Char) ++ [Char.ofNat 10]) := by
  rw [fromCString_big]
  constructor
  · rw [List.length_replicate]
    norm_num
  · have hp : String.Print ⟨some 0, 0⟩ ⟨1, [(0, [])]⟩
        = some [Char.ofNat 10] := rfl
    rw [hp]
    intro hEq
    have h2 := congrArg List.length (Option.some.inj hEq)
    rw [List.length_append, List.length_replicate, List.length_cons,
      List.length_nil] at h2
    norm_num at h2

/-- C2 amended: for every byte sequence `b` (the characters before the
NUL terminator of the input C string) of length below `2 ^ 32` — the
range of the `uint32_t m_Size` member — `String::String(const char*)`
allocates a buffer of exactly `b.length` bytes, copies all of `b` into
it, and the constructed string's `Print` emits exactly `b` followed by
one newline.  (At length `2 ^ 32` the stored size wraps; see the
counterexample.) -/
theorem construct_roundtrip (b : List Char) (h : Heap)
    (hb : Char.ofNat 0 ∉ b) (hlen : b.length < 2 ^ 32) :
    (String.fromCString b h).str.m_Size = b.length ∧
    (String.fromCString b h).heap.get ((String.fromCString b h).str.m_Data.getD 0)
      = some b ∧
    (String.fromCString b h).str.Print (String.fromCString b h).heap
      = some (b ++ [Char.ofNat 10]) := by
  rw [fromCString_eq b h hb hlen]
  refine ⟨rfl, Heap.get_head h.next (h.next + 1) b h.live, ?_⟩
  exact Print_of_get _ _ h.next b rfl rfl
    (Heap.get_head h.next (h.next + 1) b h.live)

/-- Witness for `construct_roundtrip` at `b = "Foo"`. -/
theorem construct_roundtrip_witness :
    (Char.ofNat 0 ∉ fooChars ∧ fooChars.length < 2 ^ 32) ∧
    ((String.fromCString fooChars Heap.init).str.m_Size = fooChars.length ∧
     (String.fromCString fooChars Heap.init).heap.get
       ((String.fromCString fooChars Heap.init).str.m_Data.getD 0) = some fooChars ∧
     (String.fromCString fooChars Heap.init).str.Print
       (String.fromCString fooChars Heap.init).heap
       = some (fooChars ++ [Char.ofNat 10])) :=
  ⟨⟨by decide, by decide⟩,
    construct_roundtrip fooChars Heap.init (by decide) (by decide)⟩

/-- C1 counterexample: with the NUL-free input of length exactly `2 ^ 32`
the constructed buffer stores a wrapped (zero) size, so the
move-constructed target's `Print` emits only the newline, not the input's
bytes — the "emits exactly the bytes b" part of the claim fails for such
`b`. -/
theorem transfer_exclusivity_cex :
    (String.moveCtor
        (String.fromCString (List.replicate (2 ^ 32) 'a') Heap.init).str).str.Print
        (String.fromCString (List.replicate (2 ^ 32) 'a') Heap.init).heap
      = some [Char.ofNat 10] ∧
    some [Char.ofNat 10]
      ≠ some ((List.replicate (2 ^ 32) 'a' : List Char) ++ [Char.ofNat 10]) := by
  constructor
  · rw [fromCString_big]
    rfl
  · intro hEq
    have h2 := congrArg List.length (Option.some.inj hEq)
    rw [List.length_append, List.length_replicate, List.length_cons,
      List.length_nil] at h2
    norm_num at h2

/-- C1 amended: for every buffer `x = construct(b)` with `b` shorter than
`2 ^ 32` bytes (the `uint32_t` size range; longer inputs wrap, see the
counterexample), the move constructor adopts `x`'s data pointer and
length unchanged, performs no allocation and no byte copy (its trace
allocates nothing and the heap is not an input of `String.moveCtor` at
all), leaves `x` with `m_Size = 0` and a null `m_Data`, the new string's
`Print` emits exactly `b` plus a newline, and the emptied `x` is safely
destructible (its destructor is a no-op release). -/
theorem transfer_exclusivity (b : List Char) (h : Heap)
    (hb : Char.ofNat 0 ∉ b) (hlen : b.length < 2 ^ 32) :
    (String.moveCtor (String.fromCString b h).str).str.m_Data
      = (String.fromCString b h).str.m_Data ∧
    (String.moveCtor (String.fromCString b h).str).str.m_Size
      = (String.fromCString b h).str.m_Size ∧
    allocCount (String.moveCtor (String.fromCString b h).str).events = 0 ∧
    (String.moveCtor (String.fromCString b h).str).src.m_Size = 0 ∧
    (String.moveCtor (String.fromCString b h).str).src.m_Data = none ∧
    (String.moveCtor (String.fromCString b h).str).str.Print
      (String.fromCString b h).heap = some (b ++ [Char.ofNat 10]) ∧
    (String.moveCtor (String.fromCString b h).str).src.dtor
      (String.fromCString b h).heap
      = some ((String.fromCString b h).heap, false, [Event.destroyed]) := by
  rw [fromCString_eq b h hb hlen]
  refine ⟨rfl, rfl, rfl, rfl, rfl, ?_, rfl⟩
  exact Print_of_get _ _ h.next b rfl rfl
    (Heap.get_head h.next (h.next + 1) b h.live)

/-- Witness for `transfer_exclusivity` at `b = "Foo"`. -/
theorem transfer_exclusivity_witness :
    (Char.ofNat 0 ∉ fooChars ∧ fooChars.length < 2 ^ 32) ∧
    (String.moveCtor (String.fromCString fooChars Heap.init).str).str.Print
      (String.fromCString fooChars Heap.init).heap
      = some (fooChars ++ [Char.ofNat 10]) :=
  ⟨⟨by decide, by decide⟩,
    (transfer_exclusivity fooChars Heap.init (by decide) (by decide)).2.2.2.2.2.1⟩

/-- C3: the destructor frees `m_Data` only when it is non-null and is a
no-op release on any emptied (null-data) instance; for `x = construct(b)`
moved into `y`, destroying the pair in either order frees the underlying
allocation exactly once in total: the emptied source's destructor frees
nothing and the target's destructor performs the single free, after which
the source's destructor still frees nothing. -/
theorem no_double_release (b : List Char) (h : Heap) :
    (∀ s : String, ∀ hh : Heap, s.m_Data = none →
      s.dtor hh = some (hh, false, [Event.destroyed])) ∧
    (∃ h2 : Heap,
      (String.moveCtor (String.fromCString b h).str).src.dtor
        (String.fromCString b h).heap
        = some ((String.fromCString b h).heap, false, [Event.destroyed]) ∧
      (String.moveCtor (String.fromCString b h).str).str.dtor
        (String.fromCString b h).heap = some (h2, true, [Event.destroyed]) ∧
      (String.moveCtor (String.fromCString b h).str).src.dtor h2
        = some (h2, false, [Event.destroyed])) := by
  constructor
  · intro s hh hnull
    simp [String.dtor, hnull]
  · refine ⟨((String.fromCString b h).heap).free h.next, rfl, ?_, rfl⟩
    rw [fromCString_shape b h]
    simp [String.dtor, String.moveCtor, Heap.get, List.find?, Heap.free]

/-- C5: for every byte sequence `b`, with `x = construct(b)` and
`y = duplicate(x)` (the copy constructor), the copy succeeds and `y` gets
its own fresh allocation — a different pointer than `x`'s — holding
exactly `x.m_Size` bytes that are a byte-for-byte copy of `x`'s stored
contents (the two allocations have equal contents); and destroying either
one leaves what the other's `Print` emits unchanged. -/
theorem duplication_independence (b : List Char) (h : Heap) :
    ∃ cr : CtorResult,
      String.copyCtor (String.fromCString b h).str (String.fromCString b h).heap
        = some cr ∧
      cr.str.m_Size = (String.fromCString b h).str.m_Size ∧
      cr.str.m_Data ≠ (String.fromCString b h).str.m_Data ∧
      cr.heap.get (cr.str.m_Data.getD 0)
        = (String.fromCString b h).heap.get
            ((String.fromCString b h).str.m_Data.getD 0) ∧
      (cr.heap.get (cr.str.m_Data.getD 0)).map List.length
        = some cr.str.m_Size ∧
      cr.events = [Event.copied] ∧
      ∃ out : List Char,
        cr.str.Print cr.heap = some out ∧
        (String.fromCString b h).str.Print cr.heap = some out ∧
        (∃ h3 : Heap,
          (String.fromCString b h).str.dtor cr.heap
            = some (h3, true, [Event.destroyed]) ∧
          cr.str.Print h3 = some out) ∧
        (∃ h4 : Heap,
          cr.str.dtor cr.heap = some (h4, true, [Event.destroyed]) ∧
          (String.fromCString b h).str.Print h4 = some out) := by
  rw [fromCString_shape b h]
  have hlen0 : ((cstrBytes b).take (strlen b % 2 ^ 32)).length = strlen b % 2 ^ 32 :=
    take_mod_length b
  generalize hcs : (cstrBytes b).take (strlen b % 2 ^ 32) = cs at hlen0 ⊢
  rw [← hlen0]
  have hcopy : String.copyCtor ⟨some h.next, cs.length⟩
      ⟨h.next + 1, (h.next, cs) :: h.live⟩
      = some ⟨⟨some (h.next + 1), cs.length⟩,
          ⟨h.next + 2, (h.next + 1, cs) :: (h.next, cs) :: h.live⟩,
          [Event.copied]⟩ :=
    copyCtor_of_get _ h.next cs (Heap.get_head h.next (h.next + 1) cs h.live)
  refine ⟨_, hcopy, rfl, by simp, ?_, ?_, rfl, cs ++ [Char.ofNat 10],
    ?_, ?_, ⟨?_, ?_, ?_⟩, ⟨?_, ?_, ?_⟩⟩
  · show Heap.get ⟨h.next + 2, (h.next + 1, cs) :: (h.next, cs) :: h.live⟩ (h.next + 1)
        = Heap.get ⟨h.next + 1, (h.next, cs) :: h.live⟩ h.next
    rw [Heap.get_head (h.next + 1) (h.next + 2) cs ((h.next, cs) :: h.live),
      Heap.get_head h.next (h.next + 1) cs h.live]
  · show Option.map List.length
        (Heap.get ⟨h.next + 2, (h.next + 1, cs) :: (h.next, cs) :: h.live⟩ (h.next + 1))
        = some cs.length
    rw [Heap.get_head (h.next + 1) (h.next + 2) cs ((h.next, cs) :: h.live)]
    rfl
  · exact Print_of_get _ _ (h.next + 1) cs rfl rfl
      (Heap.get_head (h.next + 1) (h.next + 2) cs ((h.next, cs) :: h.live))
  · refine Print_of_get _ _ h.next cs rfl rfl ?_
    simp [Heap.get, List.find?, beq_succ_self]
  · exact ⟨h.next + 2, (h.next + 1, cs) :: (h.live.filter (fun p => p.1 != h.next))⟩
  · simp [String.dtor, Heap.get, List.find?, Heap.free, beq_succ_self]
  · refine Print_of_get _ _ (h.next + 1) cs rfl rfl ?_
    exact Heap.get_head (h.next + 1) (h.next + 2) cs _
  · exact ⟨h.next + 2, (h.next, cs) :: (h.live.filter (fun p => p.1 != (h.next + 1)))⟩
  · simp [String.dtor, Heap.get, List.find?, Heap.free]
  · refine Print_of_get _ _ h.next cs rfl rfl ?_
    exact Heap.get_head h.next (h.next + 2) cs _

/-- Witness for `duplication_independence` at `b = "Foo"`: the copy
constructor succeeds on `construct("Foo")`. -/
theorem duplication_independence_witness :
    (String.copyCtor (String.fromCString fooChars Heap.init).str
      (String.fromCString fooChars Heap.init).heap).isSome := by
  obtain ⟨cr, hcr, -⟩ := duplication_independence fooChars Heap.init
  simp [hcr]

/-- C6: the end-to-end run of `main` — construct the transient
`String("Foo")`, move it into the `Entity`, destroy the emptied
temporary, call `PrintName`, destroy the entity's name — emits exactly
`Foo` plus a newline, its trace is one `Created!`, one `Moved!` and two
`Destroyed` lines, so exactly one allocation and zero duplications occur,
and the moved-from temporary was left empty (`m_Data` null, `m_Size`
zero). -/
theorem scenarioA_end_to_end :
    mainRun = some (fooChars ++ [Char.ofNat 10],
      [Event.created, Event.moved, Event.destroyed, Event.destroyed],
      ⟨none, 0⟩, ⟨1, []⟩) ∧
    allocCount [Event.created, Event.moved, Event.destroyed, Event.destroyed] = 1 ∧
    dupCount [Event.created, Event.moved, Event.destroyed, Event.destroyed] = 0 := by
  decide

/-- C7: constructing an `Entity` from an existing (named, lvalue) buffer
`construct(b)` takes the copy-constructor path (`Copied!`, one
duplication); afterwards the caller's buffer is untouched — it holds a
different allocation than the holder's and still prints exactly the bytes
it stores — the holder's `PrintName` prints the same bytes, and the whole
run performs two allocations, exactly one of which is a duplication; when
`b` is NUL-free and shorter than `2 ^ 32` (so the `uint32_t` size does
not wrap), both print exactly `b` plus a newline. -/
theorem scenarioB_duplication (b : List Char) (h : Heap) :
    ∃ ent : Entity, ∃ h2 : Heap, ∃ evs : List Event,
      Entity.fromExisting (String.fromCString b h).str
        (String.fromCString b h).heap = some (ent, h2, evs) ∧
      evs = [Event.copied] ∧
      ent.m_Name.m_Data ≠ (String.fromCString b h).str.m_Data ∧
      (∃ out : List Char,
        (String.fromCString b h).str.Print h2 = some out ∧
        ent.PrintName h2 = some out) ∧
      allocCount ((String.fromCString b h).events ++ evs) = 2 ∧
      dupCount ((String.fromCString b h).events ++ evs) = 1 ∧
      (Char.ofNat 0 ∉ b → b.length < 2 ^ 32 →
        (String.fromCString b h).str.Print h2 = some (b ++ [Char.ofNat 10]) ∧
        ent.PrintName h2 = some (b ++ [Char.ofNat 10])) := by
  rw [fromCString_shape b h]
  have hlen0 : ((cstrBytes b).take (strlen b % 2 ^ 32)).length = strlen b % 2 ^ 32 :=
    take_mod_length b
  generalize hcs : (cstrBytes b).take (strlen b % 2 ^ 32) = cs at hlen0 ⊢
  rw [← hlen0]
  have hp1 : String.Print ⟨some h.next, cs.length⟩
      ⟨h.next + 2, (h.next + 1, cs) :: (h.next, cs) :: h.live⟩
      = some (cs ++ [Char.ofNat 10]) := by
    refine Print_of_get _ _ h.next cs rfl rfl ?_
    simp [Heap.get, List.find?, beq_succ_self]
  have hp2 : String.Print ⟨some (h.next + 1), cs.length⟩
      ⟨h.next + 2, (h.next + 1, cs) :: (h.next, cs) :: h.live⟩
      = some (cs ++ [Char.ofNat 10]) :=
    Print_of_get _ _ (h.next + 1) cs rfl rfl
      (Heap.get_head (h.next + 1) (h.next + 2) cs ((h.next, cs) :: h.live))
  refine ⟨⟨⟨some (h.next + 1), cs.length⟩⟩,
    ⟨h.next + 2, (h.next + 1, cs) :: (h.next, cs) :: h.live⟩, [Event.copied],
    ?_, rfl, by simp, ⟨cs ++ [Char.ofNat 10], hp1, hp2⟩, rfl, rfl, ?_⟩
  · simp [Entity.fromExisting,
      copyCtor_of_get _ h.next cs (Heap.get_head h.next (h.next + 1) cs h.live)]
  · intro hb hlt
    have hbytes : cstrBytes b = b := cstrBytes_of_not_mem b hb
    have hstr : strlen b = b.length := congrArg List.length hbytes
    have hcs2 : cs = b := by
      rw [← hcs, hbytes, hstr, Nat.mod_eq_of_lt hlt, List.take_length]
    subst hcs2
    exact ⟨hp1, hp2⟩

/-- Witness for `scenarioB_duplication` at `b = "Bar"`. -/
theorem scenarioB_duplication_witness :
    (Entity.fromExisting (String.fromCString ['B', 'a', 'r'] Heap.init).str
      (String.fromCString ['B', 'a', 'r'] Heap.init).heap).isSome := by
  obtain ⟨ent, h2, evs, hres, -⟩ :=
    scenarioB_duplication ['B', 'a', 'r'] Heap.init
  simp [hres]

/-- Witness for `no_double_release` at `b = "Foo"`, `h = Heap.init`. -/
theorem no_double_release_witness :
    ∃ h2 : Heap,
      (String.moveCtor (String.fromCString fooChars Heap.init).str).src.dtor
        (String.fromCString fooChars Heap.init).heap
        = some ((String.fromCString fooChars Heap.init).heap, false,
            [Event.destroyed]) ∧
      (String.moveCtor (String.fromCString fooChars Heap.init).str).str.dtor
        (String.fromCString fooChars Heap.init).heap
        = some (h2, true, [Event.destroyed]) ∧
      (String.moveCtor (String.fromCString fooChars Heap.init).str).src.dtor h2
        = some (h2, false, [Event.destroyed]) :=
  (no_double_release fooChars Heap.init).2

/-- C8 counterexample: a `String` whose `m_Data` is null but whose
`m_Size` is 1 (such a state is producible by the uninitialized
`String() = default;`).  `Print` does not emit just the terminator on it:
the loop body reads `m_Data[0]` through the null pointer, which the
embedding reports as undefined behaviour (`none`) — the code contains no
defensive null check. -/
theorem print_null_positive_size_cex :
    (String.mk none 1).m_Data = none ∧
    String.Print ⟨none, 1⟩ Heap.init = none ∧
    String.Print ⟨none, 1⟩ Heap.init ≠ some [Char.ofNat 10] := by
  refine ⟨rfl, rfl, ?_⟩
  decide

/-- C8 amended: for every `String` whose `m_Data` is null and whose
`m_Size` is 0 (which is what the representation invariant guarantees for
null-data states, and what every transferred-from instance satisfies),
`Print` emits nothing but the line terminator and reads no byte through
the null pointer. -/
theorem print_null_emits_terminator (s : String) (h : Heap)
    (_hd : s.m_Data = none) (hs : s.m_Size = 0) :
    s.Print h = some [Char.ofNat 10] := by
  simp [String.Print, readBytes, hs]

/-- Witness for `print_null_emits_terminator` at the moved-from state
`⟨none, 0⟩`. -/
theorem print_null_emits_terminator_witness :
    String.Print ⟨none, 0⟩ Heap.init = some [Char.ofNat 10] :=
  print_null_emits_terminator ⟨none, 0⟩ Heap.init rfl rfl

/-- C9 counterexample: `String() = default;` leaves `m_Data` and `m_Size`
uninitialized, so a default-constructed instance can hold e.g. a null
pointer together with size 5, which violates the representation
invariant — default construction does not establish it. -/
theorem defaultCtor_breaks_invariant :
    (String.defaultCtor none 5).m_Data = none ∧
    (String.defaultCtor none 5).m_Size = 5 ∧
    ¬ repInv (String.defaultCtor none 5) Heap.init := by
  refine ⟨rfl, rfl, fun hinv => ?_⟩
  have h5 : (String.defaultCtor none 5).m_Size = 0 := hinv.1 rfl
  exact absurd h5 (by decide)

/-- Length of a successful `readBytes` read. -/
lemma readBytes_length (h : Heap) (d : Option Nat) (n : Nat)
    (bs : List Char) (hr : readBytes h d n = some bs) : bs.length = n := by
  by_cases hn : n = 0
  · simp [readBytes, hn] at hr
    simp [← hr, hn]
  · match d with
    | none => simp [readBytes, hn] at hr
    | some a =>
      match ha : h.get a with
      | none => simp [readBytes, hn, ha] at hr
      | some cs =>
        by_cases hle : n ≤ cs.length
        · simp [readBytes, hn, ha, hle] at hr
          simp [← hr, List.length_take, Nat.min_eq_left hle]
        · simp [readBytes, hn, ha, hle] at hr

/-- C9 amended: construction from a byte string always establishes the
representation invariant; copy construction establishes it whenever it
completes (i.e. whenever reading the source is defined); move
construction, which adopts the source's members verbatim, establishes it
for the new string and for the emptied source whenever the source
satisfied it.  Default construction is excluded: it leaves the members
uninitialized (see the counterexample). -/
theorem ctors_establish_repInv :
    (∀ b : List Char, ∀ h : Heap,
      repInv (String.fromCString b h).str (String.fromCString b h).heap) ∧
    (∀ s : String, ∀ h : Heap, ∀ cr : CtorResult,
      String.copyCtor s h = some cr → repInv cr.str cr.heap) ∧
    (∀ s : String, ∀ h : Heap, repInv s h →
      repInv (String.moveCtor s).str h ∧ repInv (String.moveCtor s).src h) := by
  refine ⟨?_, ?_, ?_⟩
  · intro b h
    rw [fromCString_shape b h]
    refine ⟨fun hnone => by simp at hnone, ?_⟩
    intro hpos
    exact ⟨h.next, rfl, (cstrBytes b).take (strlen b % 2 ^ 32),
      Heap.get_head h.next (h.next + 1) _ h.live,
      le_of_eq (take_mod_length b).symm⟩
  · intro s h cr hcr
    match hr : readBytes h s.m_Data s.m_Size with
    | none => simp [String.copyCtor, hr] at hcr
    | some bytes =>
      simp [String.copyCtor, hr, Heap.alloc] at hcr
      subst hcr
      refine ⟨fun hnone => by simp at hnone, ?_⟩
      intro hpos
      exact ⟨h.next, rfl, bytes, Heap.get_head h.next (h.next + 1) bytes h.live,
        le_of_eq (readBytes_length h s.m_Data s.m_Size bytes hr).symm⟩
  · intro s h hinv
    refine ⟨hinv, ?_, ?_⟩
    · intro _
      rfl
    · intro hpos
      exact absurd hpos (by simp [String.moveCtor])

/-- Witness for `ctors_establish_repInv`: the move constructor applied to
the empty string preserves the invariant. -/
theorem ctors_establish_repInv_witness :
    repInv (String.moveCtor ⟨none, 0⟩).str Heap.init ∧
    repInv (String.moveCtor ⟨none, 0⟩).src Heap.init :=
  ctors_establish_repInv.2.2 ⟨none, 0⟩ Heap.init
    ⟨fun _ => rfl, fun hpos => absurd hpos (by decide)⟩

/-- C10: copy-constructing from a transferred-from buffer (null data,
size 0) succeeds — it reads zero bytes (never through the null pointer),
allocates a fresh zero-size buffer (`new char[0]` is a valid non-null
pointer) — and yields a string of size 0 whose `Print` emits only the
line terminator; afterwards both the source (a no-op release) and the
copy (freeing its own fresh allocation) are independently destructible. -/
theorem copy_from_moved_empty (x : String) (h : Heap)
    (hd : x.m_Data = none) (hs : x.m_Size = 0) :
    ∃ cr : CtorResult,
      String.copyCtor x h = some cr ∧
      cr.str.m_Size = 0 ∧
      cr.str.Print cr.heap = some [Char.ofNat 10] ∧
      x.dtor cr.heap = some (cr.heap, false, [Event.destroyed]) ∧
      (∃ h2 : Heap, cr.str.dtor cr.heap = some (h2, true, [Event.destroyed])) := by
  refine ⟨⟨⟨some h.next, 0⟩, ⟨h.next + 1, (h.next, []) :: h.live⟩, [Event.copied]⟩,
    ?_, rfl, ?_, ?_, ?_⟩
  · simp [String.copyCtor, readBytes, hs, Heap.alloc]
  · simp [String.Print, readBytes]
  · simp [String.dtor, hd]
  · exact ⟨⟨h.next + 1, h.live.filter (fun p => p.1 != h.next)⟩,
      by simp [String.dtor, Heap.get, List.find?, Heap.free]⟩

/-- Witness for `copy_from_moved_empty` at the transferred-from state
`⟨none, 0⟩` on the empty heap. -/
theorem copy_from_moved_empty_witness :
    (String.copyCtor ⟨none, 0⟩ Heap.init).isSome := by
  obtain ⟨cr, hcr, -⟩ := copy_from_moved_empty ⟨none, 0⟩ Heap.init rfl rfl
  simp [hcr]

/-- Shape of a successful copy construction: the copy's pointer is the
fresh allocation id and the heap's fresh mark is bumped by one. -/
lemma copyCtor_shape (s : String) (h : Heap) (cr : CtorResult)
    (hcr : String.copyCtor s h = some cr) :
    cr.str.m_Data = some h.next ∧ cr.heap.next = h.next + 1 := by
  match hr : readBytes h s.m_Data s.m_Size with
  | none => simp [String.copyCtor, hr] at hcr
  | some bytes =>
    simp [String.copyCtor, hr, Heap.alloc] at hcr
    subst hcr
    exact ⟨rfl, rfl⟩

/-- The destructor never changes the heap's fresh-allocation mark. -/
lemma dtor_next (s : String) (h h2 : Heap) (fr : Bool) (evs : List Event)
    (hd : s.dtor h = some (h2, fr, evs)) : h2.next = h.next := by
  match hm : s.m_Data with
  | none =>
    simp [String.dtor, hm] at hd
    rw [← hd.1]
  | some a =>
    match hg : h.get a with
    | none => simp [String.dtor, hm, hg] at hd
    | some cs =>
      simp [String.dtor, hm, hg] at hd
      rw [← hd.1, Heap.free]

/-- The move step keeps ownership pairwise disjoint: the move target
inherits exactly the pointer that the (now nulled) source held. -/
lemma pairwise_move (l : List String) (i : Nat) (hi : i < l.length)
    (hp : l.Pairwise DisjointOwn) :
    (∀ t ∈ l.set i (⟨none, 0⟩ : String), DisjointOwn (l.get ⟨i, hi⟩) t) ∧
    (l.set i (⟨none, 0⟩ : String)).Pairwise DisjointOwn := by
  induction l generalizing i with
  | nil => exact absurd hi (by simp)
  | cons x xs ih =>
    rw [List.pairwise_cons] at hp
    cases i with
    | zero =>
      constructor
      · intro t ht a hxa hta
        rcases List.mem_cons.mp ht with h1 | h1
        · subst h1
          exact Option.noConfusion hta
        · exact hp.1 t h1 a hxa hta
      · rw [List.set_cons_zero, List.pairwise_cons]
        exact ⟨fun t _ a hva _ => Option.noConfusion hva, hp.2⟩
    | succ n =>
      have hn : n < xs.length := by simpa using hi
      obtain ⟨iha, ihb⟩ := ih n hn hp.2
      constructor
      · intro t ht a hga hta
        rw [List.set_cons_succ] at ht
        rcases List.mem_cons.mp ht with h1 | h1
        · subst h1
          exact hp.1 (xs.get ⟨n, hn⟩) (List.get_mem xs _ _) a hta hga
        · exact iha t h1 a hga hta
      · rw [List.set_cons_succ, List.pairwise_cons]
        refine ⟨?_, ihb⟩
        intro t ht a hxa hta
        rcases List.mem_or_eq_of_mem_set ht with h1 | h1
        · exact hp.1 t h1 a hxa hta
        · subst h1
          exact Option.noConfusion hta

/-- Every execution step preserves exclusive ownership. -/
lemma step_preserves_exclusive (c c' : Config) (hex : Exclusive c)
    (hstep : Step c c') : Exclusive c' := by
  obtain ⟨hb, hns⟩ := hex
  cases hstep with
  | create cs =>
    have hstr : (String.fromCString cs c.heap).str.m_Data = some c.heap.next := rfl
    have hnext : (String.fromCString cs c.heap).heap.next = c.heap.next + 1 := rfl
    constructor
    · intro s hs a ha
      rw [hnext]
      rcases List.mem_cons.mp hs with h1 | h1
      · subst h1
        rw [hstr] at ha
        cases ha
        exact Nat.lt_succ_self _
      · exact Nat.lt_succ_of_lt (hb s h1 a ha)
    · rw [NoShare, List.pairwise_cons]
      refine ⟨?_, hns⟩
      intro t ht a hna hta
      rw [hstr] at hna
      cases hna
      exact absurd (hb t ht _ hta) (Nat.lt_irrefl _)
  | copy i cr hres =>
    obtain ⟨hstr, hnext⟩ := copyCtor_shape _ _ _ hres
    constructor
    · intro s hs a ha
      rw [hnext]
      rcases List.mem_cons.mp hs with h1 | h1
      · subst h1
        rw [hstr] at ha
        cases ha
        exact Nat.lt_succ_self _
      · exact Nat.lt_succ_of_lt (hb s h1 a ha)
    · rw [NoShare, List.pairwise_cons]
      refine ⟨?_, hns⟩
      intro t ht a hna hta
      rw [hstr] at hna
      cases hna
      exact absurd (hb t ht _ hta) (Nat.lt_irrefl _)
  | move i =>
    obtain ⟨hmv, hpw⟩ := pairwise_move c.strs i.val i.isLt hns
    constructor
    · intro s hs a ha
      rcases List.mem_cons.mp hs with h1 | h1
      · subst h1
        exact hb (c.strs.get i) (List.get_mem c.strs _ _) a ha
      · rcases List.mem_or_eq_of_mem_set h1 with h2 | h2
        · exact hb s h2 a ha
        · subst h2
          exact Option.noConfusion ha
    · rw [NoShare, List.pairwise_cons]
      exact ⟨fun t ht => hmv t ht, hpw⟩
  | destroy i h2 fr evs hres =>
    constructor
    · intro s hs a ha
      rw [dtor_next _ _ _ _ _ hres]
      exact hb s ((List.eraseIdx_sublist c.strs i.val).subset hs) a ha
    · exact List.Pairwise.sublist (List.eraseIdx_sublist c.strs i.val) hns

/-- C4: starting from the empty initial configuration, every
configuration reachable by the program's operations (construct, copy,
move, destroy) satisfies exclusive ownership: every owned pointer targets
an id below the heap's fresh mark and no two live `String` instances hold
the same data pointer — in particular the move step, which nulls the
source while handing its pointer to the target, preserves this. -/
theorem exclusive_ownership_invariant (c : Config)
    (hreach : Reach Config.init c) : Exclusive c := by
  have hr : Relation.ReflTransGen Step Config.init c := hreach
  clear hreach
  induction hr with
  | refl => exact ⟨fun s hs => absurd hs (List.not_mem_nil s), List.Pairwise.nil⟩
  | tail _ hstep ih => exact step_preserves_exclusive _ _ ih hstep

/-- Witness for `exclusive_ownership_invariant`: the configuration after
one `create` step from the initial configuration. -/
theorem exclusive_ownership_invariant_witness :
    Exclusive ⟨[(String.fromCString fooChars Heap.init).str],
               (String.fromCString fooChars Heap.init).heap⟩ :=
  exclusive_ownership_invariant _
    (Relation.ReflTransGen.single (Step.create Config.init fooChars))

end MoveSemantics
